import Mathlib

/-
Verification development for the Thanos Ruler command (`cmd/thanos/rule.go`).

The Go source is shallowly embedded: pure functions become Lean functions,
the stateful pieces (the alertmanager set, the reload loop, the file-SD
update loop) become explicit state-passing functions, and external
collaborators (the HTTP client, `url.Parse`, `net.SplitHostPort`, the DNS
resolver, the rule-file parser) are passed in as oracle parameters so that
the control flow of the embedded code is exactly the control flow of the
source.
-/

namespace ThanosRule

/-- Partial response strategy from `storepb` (`PartialResponseStrategy`):
`WARN` and `ABORT`. -/
inductive PartialResponseStrategy where
  | abort
  | warn
deriving DecidableEq, Repr

/-- `removeDuplicateQueryAddrsGo addrs seen dups` embeds the loop of
`removeDuplicateQueryAddrs` in `cmd/thanos/rule.go`: the set is accumulated
in `seen` (kept in first-occurrence order) and every address that is already
a member increments the `thanos_rule_duplicated_query_address` counter,
tallied in `dups`. -/
def removeDuplicateQueryAddrsGo : List String → List String → Nat → List String × Nat
  | [], seen, dups => (seen.reverse, dups)
  | a :: rest, seen, dups =>
    if a ∈ seen then removeDuplicateQueryAddrsGo rest seen (dups + 1)
    else removeDuplicateQueryAddrsGo rest (a :: seen) dups

/-- `removeDuplicateQueryAddrs` from `cmd/thanos/rule.go`: returns the
deduplicated address list together with the number of duplicate detections
(counter increments). -/
def removeDuplicateQueryAddrs (addrs : List String) : List String × Nat :=
  removeDuplicateQueryAddrsGo addrs [] 0

/-- Outcome of one HTTP instant-query attempt
(`promclient.PromqlQueryInstant`): either a transport error / non-2xx
response (`err != nil` in the source) or a decoded vector plus the warning
strings of the response envelope. The vector type is abstract (`V`). -/
inductive Attempt (V : Type) where
  | failure
  | success (v : V) (warns : List String)
deriving DecidableEq

/-- What one run of the retry loop inside the query function produces:
the returned value or error, the addresses actually sent an HTTP request
(in order), and the increments made to
`thanos_rule_evaluation_with_warnings_total` (one list entry per `Inc`,
holding the strategy label used). -/
structure LoopResult (V : Type) where
  result : Except String V
  attempted : List String
  warnIncrs : List PartialResponseStrategy

/-- The `for _, i := range rand.Perm(len(addrs))` loop of the closure
returned by `queryFunc` in `cmd/thanos/rule.go`. `perm` is the index
permutation drawn by `rand.Perm`; `parseOk` is the `url.Parse` oracle
(the source parses `"http://" + addrs[i]` and returns the error
immediately on failure); `resp` is the HTTP oracle. On a failed attempt
the loop logs and continues; on the first success it increments the
warning counter when the response carried warnings and returns the vector
with nil error; when the loop runs out of addresses it returns the error
`no query peer reachable`. -/
def queryLoop {V : Type} (s : PartialResponseStrategy) (addrs : List String)
    (parseOk : String → Bool) (resp : String → Attempt V) : List Nat → LoopResult V
  | [] => ⟨Except.error "no query peer reachable", [], []⟩
  | i :: rest =>
    let addr := addrs.getD i ""
    if parseOk ("http://" ++ addr) then
      match resp addr with
      | Attempt.failure =>
        let r := queryLoop s addrs parseOk resp rest
        ⟨r.result, addr :: r.attempted, r.warnIncrs⟩
      | Attempt.success v warns =>
        ⟨Except.ok v, [addr], if 0 < warns.length then [s] else []⟩
    else
      ⟨Except.error ("url parse " ++ addr), [], []⟩

/-- Full observable outcome of one call of the query function: result,
HTTP requests made, warning-counter increments, and duplicated-address
counter increments. -/
structure EvalResult (V : Type) where
  result : Except String V
  attempted : List String
  warnIncrs : List PartialResponseStrategy
  dupIncrs : Nat

/-- One call of the closure returned by `queryFunc` in
`cmd/thanos/rule.go`. `addrs` is the snapshot `dnsProvider.Addresses()`.
As in the source, `removeDuplicateQueryAddrs` is called for its counter
side effect but its return value (the deduplicated list) is discarded:
the retry loop ranges over a permutation of the original `addrs`. -/
def queryFuncEval {V : Type} (s : PartialResponseStrategy) (addrs : List String)
    (perm : List Nat) (parseOk : String → Bool) (resp : String → Attempt V) :
    EvalResult V :=
  let dups := (removeDuplicateQueryAddrs addrs).2
  let r := queryLoop s addrs parseOk resp perm
  ⟨r.result, r.attempted, r.warnIncrs, dups⟩

/-- If a list has a known last element, consing to the front keeps it. -/
theorem getLast?_cons_some {α : Type} {l : List α} {a : α} (x : α)
    (h : l.getLast? = some a) : (x :: l).getLast? = some a := by
  cases l with
  | nil => simp at h
  | cons b t => rw [List.getLast?_cons_cons]; exact h

/-- A run of the retry loop that ends in an error never incremented the
warning counter. -/
theorem queryLoop_error_warnIncrs {V : Type} (s : PartialResponseStrategy)
    (addrs : List String) (parseOk : String → Bool) (resp : String → Attempt V) :
    ∀ (l : List Nat) (e : String),
      (queryLoop s addrs parseOk resp l).result = Except.error e →
      (queryLoop s addrs parseOk resp l).warnIncrs = [] := by
  intro l
  induction l with
  | nil => intro e _; rfl
  | cons i rest ih =>
    intro e h
    simp only [queryLoop] at h ⊢
    by_cases hp : parseOk ("http://" ++ addrs.getD i "") = true
    · rw [if_pos hp] at h ⊢
      cases hr : resp (addrs.getD i "") with
      | failure => simp only [hr] at h ⊢; exact ih e h
      | success v warns => simp only [hr] at h; cases h
    · rw [if_neg hp] at h ⊢

/-- A run of the retry loop that returns `ok v` did so from its last
attempted address, whose response was a success with value `v`; the
warning counter was incremented exactly when that response carried
warnings. -/
theorem queryLoop_ok_spec {V : Type} (s : PartialResponseStrategy)
    (addrs : List String) (parseOk : String → Bool) (resp : String → Attempt V) :
    ∀ (l : List Nat) (v : V),
      (queryLoop s addrs parseOk resp l).result = Except.ok v →
      ∃ a warns,
        (queryLoop s addrs parseOk resp l).attempted.getLast? = some a ∧
        resp a = Attempt.success v warns ∧
        (queryLoop s addrs parseOk resp l).warnIncrs =
          (if 0 < warns.length then [s] else []) := by
  intro l
  induction l with
  | nil => intro v h; simp only [queryLoop] at h; cases h
  | cons i rest ih =>
    intro v h
    simp only [queryLoop] at h ⊢
    by_cases hp : parseOk ("http://" ++ addrs.getD i "") = true
    · rw [if_pos hp] at h ⊢
      cases hr : resp (addrs.getD i "") with
      | failure =>
        simp only [hr] at h ⊢
        obtain ⟨a, warns, h1, h2, h3⟩ := ih v h
        exact ⟨a, warns, getLast?_cons_some _ h1, h2, h3⟩
      | success w warns =>
        simp only [hr] at h ⊢
        cases h
        exact ⟨addrs.getD i "", warns, rfl, hr, rfl⟩
    · rw [if_neg hp] at h
      cases h

/-- Claim C1 (code-bug evidence): the claim says the retry loop never
attempts the same address twice in one call because the snapshot is
deduplicated before the permutation is drawn. In the source, the return
value of `removeDuplicateQueryAddrs` is discarded and `rand.Perm` ranges
over the original snapshot, so with the duplicated snapshot
`["10.0.0.1:9090", "10.0.0.1:9090"]` and the permutation `[0, 1]` both
attempts hit the same address, while `removeDuplicateQueryAddrs` itself
would have returned the singleton list (and the duplicate counter is
incremented once, as the claim says). -/
theorem C1_duplicate_address_attempted_twice :
    (queryFuncEval (V := Nat) PartialResponseStrategy.warn
        ["10.0.0.1:9090", "10.0.0.1:9090"] [0, 1]
        (fun _ => true) (fun _ => Attempt.failure)).attempted
      = ["10.0.0.1:9090", "10.0.0.1:9090"] ∧
    (queryFuncEval (V := Nat) PartialResponseStrategy.warn
        ["10.0.0.1:9090", "10.0.0.1:9090"] [0, 1]
        (fun _ => true) (fun _ => Attempt.failure)).dupIncrs = 1 ∧
    (removeDuplicateQueryAddrs ["10.0.0.1:9090", "10.0.0.1:9090"]).1
      = ["10.0.0.1:9090"] := by
  refine ⟨rfl, rfl, rfl⟩

/-- Claim C2 (counterexample): under the ABORT strategy, a successful
response that carries a warning still increments
`thanos_rule_evaluation_with_warnings_total` (with the `abort` label) —
the source guards the increment only with `len(warns) > 0`, not with the
strategy. -/
theorem C2_abort_warning_still_increments :
    (queryFuncEval (V := Nat) PartialResponseStrategy.abort ["10.0.0.1:9090"] [0]
        (fun _ => true)
        (fun _ => Attempt.success 7 ["partial data"])).warnIncrs
      = [PartialResponseStrategy.abort] := by
  rfl

/-- Claim C2 (amended): for every Eval call, the warning counter is
incremented at most once, always with the label of the call's own
strategy (whether WARN or ABORT), and it is incremented exactly when the
call succeeded and the successful response (from the last attempted
address) carried at least one warning. -/
theorem C2_warning_counter_iff_response_warnings {V : Type}
    (s : PartialResponseStrategy) (addrs : List String) (perm : List Nat)
    (parseOk : String → Bool) (resp : String → Attempt V) :
    ((queryFuncEval s addrs perm parseOk resp).warnIncrs = [] ∨
      (queryFuncEval s addrs perm parseOk resp).warnIncrs = [s]) ∧
    ((queryFuncEval s addrs perm parseOk resp).warnIncrs = [s] ↔
      ∃ a v warns,
        (queryFuncEval s addrs perm parseOk resp).attempted.getLast? = some a ∧
        resp a = Attempt.success v warns ∧ warns ≠ [] ∧
        (queryFuncEval s addrs perm parseOk resp).result = Except.ok v) := by
  simp only [queryFuncEval]
  cases hres : (queryLoop s addrs parseOk resp perm).result with
  | error e =>
    have hw := queryLoop_error_warnIncrs s addrs parseOk resp perm e hres
    refine ⟨Or.inl hw, ?_, ?_⟩
    · intro h; rw [hw] at h; cases h
    · rintro ⟨a, v, warns, _, _, _, h4⟩
      cases h4
  | ok v =>
    obtain ⟨a, warns, h1, h2, h3⟩ := queryLoop_ok_spec s addrs parseOk resp perm v hres
    constructor
    · by_cases hw : 0 < warns.length
      · exact Or.inr (by rw [h3, if_pos hw])
      · exact Or.inl (by rw [h3, if_neg hw])
    constructor
    · intro hws
      refine ⟨a, v, warns, h1, h2, ?_, rfl⟩
      intro hnil
      rw [hnil] at h3
      simp only [List.length_nil, lt_irrefl, if_false] at h3
      rw [h3] at hws; cases hws
    · rintro ⟨a2, v2, warns2, g1, g2, g3, g4⟩
      injection g4 with hv
      subst hv
      rw [h1] at g1
      injection g1 with ha
      subst ha
      rw [h2] at g2
      injection g2 with _ hwarns
      subst hwarns
      rw [h3, if_pos (by cases warns with
        | nil => exact absurd rfl g3
        | cons w ws => simp)]

/-- Refinement model written from the spec's words (§4.6 steps 4–5):
"For i in π: ... On transport error or non-2xx: log, continue to next i.
On success: ... return the decoded Vector with nil error. If all
addresses fail → return no query peer reachable." Returns the result
paired with the addresses tried, in order. -/
def specQueryRetry {V : Type} (resp : String → Attempt V) :
    List String → Except String V × List String
  | [] => (Except.error "no query peer reachable", [])
  | a :: rest =>
    match resp a with
    | Attempt.success v _ => (Except.ok v, [a])
    | Attempt.failure =>
      let r := specQueryRetry resp rest
      (r.1, a :: r.2)

/-- Claim C4: for a non-empty snapshot, the query function behaves as the
spec's retry algorithm over the drawn permutation of the snapshot: failed
addresses are skipped, the first success returns its vector with nil
error and stops the loop, and if every address fails the call returns the
error `no query peer reachable`. -/
theorem C4_retry_permutation_until_first_success {V : Type}
    (s : PartialResponseStrategy) (addrs : List String) (perm : List Nat)
    (parseOk : String → Bool) (resp : String → Attempt V)
    (hne : addrs ≠ [])
    (hperm : List.Perm perm (List.range addrs.length))
    (hparse : ∀ u, parseOk u = true) :
    ((queryFuncEval s addrs perm parseOk resp).result,
      (queryFuncEval s addrs perm parseOk resp).attempted)
      = specQueryRetry resp (perm.map (fun i => addrs.getD i "")) := by
  clear hne hperm
  simp only [queryFuncEval]
  induction perm with
  | nil => rfl
  | cons i rest ih =>
    simp only [queryLoop, List.map_cons, specQueryRetry, hparse, if_true]
    cases hr : resp (addrs.getD i "") with
    | failure =>
      simp only [hr]
      have h1 := congrArg Prod.fst ih
      have h2 := congrArg Prod.snd ih
      simp only at h1 h2
      rw [h1, h2]
    | success v warns => simp only [hr]

/-- Claim C5: when the address snapshot is empty, the query function
returns the error `no query peer reachable` and makes no HTTP request
(the permutation of an empty snapshot is empty, so nothing is attempted). -/
theorem C5_empty_snapshot_no_request {V : Type}
    (s : PartialResponseStrategy) (perm : List Nat)
    (parseOk : String → Bool) (resp : String → Attempt V)
    (hperm : List.Perm perm (List.range (List.length ([] : List String)))) :
    (queryFuncEval s [] perm parseOk resp).result
        = Except.error "no query peer reachable" ∧
    (queryFuncEval s [] perm parseOk resp).attempted = [] := by
  have h2 : List.Perm perm ([] : List Nat) := by simpa using hperm
  have hnil : perm = [] := h2.eq_nil
  subst hnil
  exact ⟨rfl, rfl⟩

/-- Concrete HTTP oracle for witnesses: address `a:1` answers with vector
value 3 and no warnings, every other address fails. -/
def respW : String → Attempt Nat :=
  fun a => if a = "a:1" then Attempt.success 3 [] else Attempt.failure

/-- Concrete HTTP oracle for witnesses: every address answers successfully
with one warning. -/
def respSuccessWarn : String → Attempt Nat :=
  fun _ => Attempt.success 7 ["w1"]

/-- Witness for C2 at a concrete input: a successful response carrying one
warning increments the counter once with the strategy label. -/
theorem C2_warning_counter_iff_response_warnings_witness :
    (queryFuncEval PartialResponseStrategy.warn ["a:1"] [0]
        (fun _ => true) respSuccessWarn).warnIncrs
      = [PartialResponseStrategy.warn] :=
  ((C2_warning_counter_iff_response_warnings PartialResponseStrategy.warn
      ["a:1"] [0] (fun _ => true) respSuccessWarn).2).mpr
    ⟨"a:1", 7, ["w1"], rfl, rfl, by decide, rfl⟩

/-- Witness for C4 at a concrete input: snapshot `["a:1", "b:2"]`,
permutation `[1, 0]`; address `b:2` fails and `a:1` succeeds. -/
theorem C4_retry_permutation_until_first_success_witness :
    ((queryFuncEval (V := Nat) PartialResponseStrategy.warn ["a:1", "b:2"] [1, 0]
        (fun _ => true) respW).result,
      (queryFuncEval (V := Nat) PartialResponseStrategy.warn ["a:1", "b:2"] [1, 0]
        (fun _ => true) respW).attempted)
      = specQueryRetry respW ([1, 0].map (fun i => ["a:1", "b:2"].getD i "")) :=
  C4_retry_permutation_until_first_success PartialResponseStrategy.warn
    ["a:1", "b:2"] [1, 0] (fun _ => true) respW (by decide) (by decide)
    (fun _ => rfl)

/-- Witness for C5 at a concrete input: the empty snapshot yields the
`no query peer reachable` error with no attempted address. -/
theorem C5_empty_snapshot_no_request_witness :
    (queryFuncEval (V := Nat) PartialResponseStrategy.abort [] []
        (fun _ => true) (fun _ => Attempt.failure)).result
        = Except.error "no query peer reachable" ∧
    (queryFuncEval (V := Nat) PartialResponseStrategy.abort [] []
        (fun _ => true) (fun _ => Attempt.failure)).attempted = [] :=
  C5_empty_snapshot_no_request PartialResponseStrategy.abort []
    (fun _ => true) (fun _ => Attempt.failure) (by decide)

/-- Alert state from the Prometheus rules library
(`rules.StateInactive`, `rules.StatePending`, `rules.StateFiring`). -/
inductive AlertState where
  | inactive
  | pending
  | firing
deriving DecidableEq, Repr

/-- Label and annotation sets, carried through untouched by `notify`. -/
abbrev LabelSet := List (String × String)

/-- Go `time.Time` modelled as nanoseconds since the epoch; the zero value
(`IsZero`) is 0. -/
abbrev GoTime := Int

/-- The fields of `rules.Alert` consumed by the `notify` closure in
`runRule` (`cmd/thanos/rule.go`). -/
structure RulesAlert where
  State : AlertState
  Labels : LabelSet
  Annotations : LabelSet
  FiredAt : GoTime
  ResolvedAt : GoTime
deriving DecidableEq, Repr

/-- `alert.Alert` notification object as built by the `notify` closure.
`EndsAt` keeps the Go zero value 0 unless assigned. -/
structure AlertNotification where
  Labels : LabelSet
  Annotations : LabelSet
  StartsAt : GoTime
  EndsAt : GoTime
  GeneratorURL : String
deriving DecidableEq, Repr

/-- The notification object built for one alert inside the `notify`
closure in `runRule`: `StartsAt` is the alert's `FiredAt`, labels and
annotations are copied, the generator URL is the query URL plus the
expression table link, and `EndsAt` is assigned only when `ResolvedAt` is
non-zero. `tableLink` is the `strutil.TableLinkForExpression` oracle. -/
def mkAlertNotification (aqURL : String) (tableLink : String → String)
    (expr : String) (alrt : RulesAlert) : AlertNotification :=
  let a : AlertNotification :=
    { StartsAt := alrt.FiredAt
      EndsAt := 0
      Labels := alrt.Labels
      Annotations := alrt.Annotations
      GeneratorURL := aqURL ++ tableLink expr }
  if alrt.ResolvedAt ≠ 0 then { a with EndsAt := alrt.ResolvedAt } else a

/-- The `notify` closure in `runRule` (`cmd/thanos/rule.go`): walks the
alert list in order, skips alerts in the Pending state, and builds the
notification list that is handed to `alertQ.Push`. -/
def notify (aqURL : String) (tableLink : String → String) (expr : String) :
    List RulesAlert → List AlertNotification
  | [] => []
  | alrt :: rest =>
    if alrt.State = AlertState.pending then notify aqURL tableLink expr rest
    else mkAlertNotification aqURL tableLink expr alrt ::
      notify aqURL tableLink expr rest

/-- Claim C6: the list pushed to the alert queue consists of exactly the
non-Pending alerts, each turned into a notification whose `StartsAt` is
the alert's `FiredAt` and whose `EndsAt` is set (non-zero, to
`ResolvedAt`) exactly when the alert's `ResolvedAt` is non-zero. -/
theorem C6_notify_filters_pending (aqURL : String) (tableLink : String → String)
    (expr : String) (alerts : List RulesAlert) :
    notify aqURL tableLink expr alerts
      = (alerts.filter (fun a => decide (a.State ≠ AlertState.pending))).map
          (mkAlertNotification aqURL tableLink expr) ∧
    (∀ a : RulesAlert,
      (mkAlertNotification aqURL tableLink expr a).StartsAt = a.FiredAt ∧
      ((mkAlertNotification aqURL tableLink expr a).EndsAt ≠ 0 ↔
        a.ResolvedAt ≠ 0) ∧
      (a.ResolvedAt ≠ 0 →
        (mkAlertNotification aqURL tableLink expr a).EndsAt = a.ResolvedAt)) := by
  constructor
  · induction alerts with
    | nil => rfl
    | cons alrt rest ih =>
      by_cases h : alrt.State = AlertState.pending
      · simp [notify, h, ih]
      · simp [notify, h, ih]
  · intro a
    by_cases h : a.ResolvedAt = 0
    · refine ⟨?_, ?_, ?_⟩
      · simp [mkAlertNotification, h]
      · simp [mkAlertNotification, h]
      · intro hc; exact absurd h hc
    · refine ⟨?_, ?_, ?_⟩
      · simp [mkAlertNotification, h]
      · simp [mkAlertNotification, h]
      · intro _; simp [mkAlertNotification, h]

/-- Witness for C6 at a concrete input: one Pending alert is dropped, one
Firing unresolved alert and one Firing resolved alert are kept. -/
theorem C6_notify_filters_pending_witness :
    notify "http://q" (fun e => e) "up == 0"
        [⟨AlertState.pending, [("alertname", "A")], [], 5, 0⟩,
         ⟨AlertState.firing, [("alertname", "B")], [], 7, 0⟩,
         ⟨AlertState.firing, [("alertname", "C")], [], 7, 9⟩]
      = ([⟨AlertState.firing, [("alertname", "B")], [], 7, 0⟩,
          ⟨AlertState.firing, [("alertname", "C")], [], 7, 9⟩].filter
            (fun a => decide (a.State ≠ AlertState.pending))).map
          (mkAlertNotification "http://q" (fun e => e) "up == 0") ∧
    (mkAlertNotification "http://q" (fun e => e) "up == 0"
        ⟨AlertState.firing, [("alertname", "C")], [], 7, 9⟩).StartsAt = 7 := by
  constructor
  · exact ((C6_notify_filters_pending "http://q" (fun e => e) "up == 0"
      [⟨AlertState.pending, [("alertname", "A")], [], 5, 0⟩,
       ⟨AlertState.firing, [("alertname", "B")], [], 7, 0⟩,
       ⟨AlertState.firing, [("alertname", "C")], [], 7, 9⟩]).1).trans (by decide)
  · exact ((C6_notify_filters_pending "http://q" (fun e => e) "up == 0"
      [⟨AlertState.firing, [("alertname", "C")], [], 7, 9⟩]).2
        ⟨AlertState.firing, [("alertname", "C")], [], 7, 9⟩).1

/-- A rule group as seen by the reload loop when stamping the
`thanos_rule_loaded_rules` gauge: owning strategy, file, group name, and
number of rules. -/
structure RuleGroup where
  strategy : PartialResponseStrategy
  file : String
  name : String
  rules : Nat
deriving DecidableEq, Repr

/-- The flattened group registries of the rule managers. -/
abbrev Managers := List RuleGroup

/-- Modelled from the spec: `thanosrule.Managers.Update` (pkg/rule is not
under src/). Spec §4.7: every globbed file is parsed into groups, each
group routed to the manager of its declared strategy; on any parse error
Update returns that error; on success the full registries are replaced by
the parsed groups. Parsing is abstracted as the oracle `parse`. -/
def managersUpdate (parse : String → Except String (List RuleGroup)) :
    List String → Except String Managers
  | [] => Except.ok []
  | f :: rest =>
    match parse f with
    | Except.error e => Except.error e
    | Except.ok gs =>
      match managersUpdate parse rest with
      | Except.error e => Except.error e
      | Except.ok more => Except.ok (gs ++ more)

/-- The proto name `s.String()` used as the strategy label when stamping
`thanos_rule_loaded_rules`. -/
def strategyProtoName : PartialResponseStrategy → String
  | PartialResponseStrategy.abort => "ABORT"
  | PartialResponseStrategy.warn => "WARN"

/-- The state touched by the reload loop in `runRule`: the
`thanos_rule_config_last_reload_successful` gauge, the success-timestamp
gauge, the `thanos_rule_loaded_rules` gauge vector, and the live group
registries of the managers. -/
structure ReloadState where
  configSuccess : Nat
  configSuccessTime : Int
  rulesLoaded : List (String × String × String × Nat)
  liveGroups : Managers
deriving DecidableEq, Repr

/-- `rulesLoaded.Reset()` followed by the
`WithLabelValues(strategy, file, group).Set(len(rules))` loop in the
reload loop of `runRule`. -/
def stampRulesLoaded (mgrs : Managers) : List (String × String × String × Nat) :=
  mgrs.map (fun g => (strategyProtoName g.strategy, g.file, g.name, g.rules))

/-- The glob stage of the reload loop in `runRule`: `filepath.Glob` on
every pattern, a bad pattern is logged and skipped, matched files are
appended in order. -/
def reloadFiles (glob : String → Except String (List String))
    (patterns : List String) : List String :=
  (patterns.map (fun pat =>
    match glob pat with
    | Except.error _ => []
    | Except.ok fs => fs)).join

/-- One iteration of the reload loop in `runRule`
(`cmd/thanos/rule.go`): glob the configured patterns and call
`ruleMgrs.Update`; on error set the reload-success gauge to 0 and
`continue` (touching nothing else); on success set it to 1, stamp the
success-time gauge with `now`, and restamp the loaded-rules gauge from
the new registries. -/
def reloadStep (parse : String → Except String (List RuleGroup))
    (glob : String → Except String (List String)) (patterns : List String)
    (now : Int) (st : ReloadState) : ReloadState :=
  let files := reloadFiles glob patterns
  match managersUpdate parse files with
  | Except.error _ => { st with configSuccess := 0 }
  | Except.ok mgrs =>
    { configSuccess := 1
      configSuccessTime := now
      rulesLoaded := stampRulesLoaded mgrs
      liveGroups := mgrs }

/-- A parse error on any globbed file makes `managersUpdate` fail. -/
theorem managersUpdate_error_of_mem (parse : String → Except String (List RuleGroup)) :
    ∀ (files : List String) (f e : String), f ∈ files →
      parse f = Except.error e →
      ∃ e2, managersUpdate parse files = Except.error e2 := by
  intro files
  induction files with
  | nil => intro f e hf _; cases hf
  | cons g rest ih =>
    intro f e hf hp
    cases hf with
    | head => exact ⟨e, by simp [managersUpdate, hp]⟩
    | tail _ hmem =>
      cases hg : parse g with
      | error e3 => exact ⟨e3, by simp [managersUpdate, hg]⟩
      | ok gs =>
        obtain ⟨e2, h2⟩ := ih f e hmem hp
        exact ⟨e2, by simp [managersUpdate, hg, h2]⟩

/-- Claim C3: a reload in which some globbed file fails to parse leaves
the live group registry, the loaded-rules gauge, and the success
timestamp untouched and only sets the reload-success gauge to 0; a
reload whose Update succeeds sets the gauge to 1, stamps the timestamp,
and restamps the loaded-rules gauge from the new registries. -/
theorem C3_reload_error_leaves_state (parse : String → Except String (List RuleGroup))
    (glob : String → Except String (List String)) (patterns : List String)
    (now : Int) (st : ReloadState) :
    (∀ f e, f ∈ reloadFiles glob patterns → parse f = Except.error e →
      reloadStep parse glob patterns now st = { st with configSuccess := 0 }) ∧
    (∀ mgrs, managersUpdate parse (reloadFiles glob patterns) = Except.ok mgrs →
      reloadStep parse glob patterns now st
        = ⟨1, now, stampRulesLoaded mgrs, mgrs⟩) := by
  constructor
  · intro f e hf hp
    obtain ⟨e2, h2⟩ :=
      managersUpdate_error_of_mem parse (reloadFiles glob patterns) f e hf hp
    simp [reloadStep, h2]
  · intro mgrs h
    simp [reloadStep, h]

/-- Concrete parse oracle for the C3 witness: `bad.yaml` fails, every
other file yields one two-rule ABORT group. -/
def parseW : String → Except String (List RuleGroup) :=
  fun f => if f = "bad.yaml" then Except.error "yaml parse error"
    else Except.ok [⟨PartialResponseStrategy.abort, f, "g1", 2⟩]

/-- Concrete glob oracle for the C3 witness. -/
def globW : String → Except String (List String) :=
  fun pat => if pat = "rules/*" then Except.ok ["good.yaml", "bad.yaml"]
    else Except.error "bad pattern"

/-- Witness for C3 at a concrete input: a failing parse of `bad.yaml`
leaves the pre-reload state with the success gauge zeroed. -/
theorem C3_reload_error_leaves_state_witness :
    reloadStep parseW globW ["rules/*"] 99
        ⟨1, 42, [("ABORT", "old.yaml", "g0", 1)],
          [⟨PartialResponseStrategy.abort, "old.yaml", "g0", 1⟩]⟩
      = ⟨0, 42, [("ABORT", "old.yaml", "g0", 1)],
          [⟨PartialResponseStrategy.abort, "old.yaml", "g0", 1⟩]⟩ :=
  (C3_reload_error_leaves_state parseW globW ["rules/*"] 99
      ⟨1, 42, [("ABORT", "old.yaml", "g0", 1)],
        [⟨PartialResponseStrategy.abort, "old.yaml", "g0", 1⟩]⟩).1
    "bad.yaml" "yaml parse error" (by decide) rfl

/-- The duplicate-address detection loop over the `--query` flag values in
`registerRule` (`cmd/thanos/rule.go`): the first address already in the
lookup set aborts setup. -/
def findDuplicateQuery : List String → List String → Option String
  | [], _ => none
  | q :: rest, seen =>
    if q ∈ seen then some q else findDuplicateQuery rest (q :: seen)

/-- The static configuration checks of `registerRule`: reject a
duplicated `--query` address; then require a query source (`fileSD` is
non-nil exactly when `--query.sd-files` is non-empty). -/
def registerRuleChecks (queries fileSDFiles : List String) : Option String :=
  match findDuplicateQuery queries [] with
  | some q => some ("Address " ++ q ++ " is duplicated for --query flag.")
  | none =>
    if fileSDFiles.length = 0 ∧ queries.length = 0 then
      some "No --query parameter was given."
    else none

/-- The empty-address loop at the top of `runRule`. -/
def runRuleCheckAddrs : List String → Option String
  | [] => none
  | addr :: rest =>
    if addr = "" then some "static querier address cannot be empty"
    else runRuleCheckAddrs rest

/-- Setup of the rule command as exercised by claim C10: the
`registerRule` checks followed by `runRule`'s empty-address check; the
first error aborts startup. -/
def ruleSetup (queries fileSDFiles : List String) : Option String :=
  match registerRuleChecks queries fileSDFiles with
  | some e => some e
  | none => runRuleCheckAddrs queries

/-- When the duplicate scan reports nothing, the scanned list has no
duplicates and is disjoint from the seen set. -/
theorem findDuplicateQuery_none_spec :
    ∀ (l seen : List String), findDuplicateQuery l seen = none →
      l.Nodup ∧ ∀ x ∈ l, x ∉ seen := by
  intro l
  induction l with
  | nil => intro seen _; exact ⟨List.nodup_nil, by simp⟩
  | cons q rest ih =>
    intro seen h
    simp only [findDuplicateQuery] at h
    by_cases hq : q ∈ seen
    · rw [if_pos hq] at h; cases h
    · rw [if_neg hq] at h
      obtain ⟨hnd, hnotin⟩ := ih (q :: seen) h
      have hqrest : q ∉ rest := fun hmem => (hnotin q hmem) (List.mem_cons_self q seen)
      refine ⟨List.nodup_cons.mpr ⟨hqrest, hnd⟩, ?_⟩
      intro x hx
      cases hx with
      | head => exact hq
      | tail _ hx2 => exact fun hxs => (hnotin x hx2) (List.mem_cons_of_mem q hxs)

/-- A present empty string trips `runRuleCheckAddrs`. -/
theorem runRuleCheckAddrs_empty_mem :
    ∀ l : List String, "" ∈ l → ∃ e, runRuleCheckAddrs l = some e := by
  intro l
  induction l with
  | nil => intro h; cases h
  | cons a rest ih =>
    intro h
    simp only [runRuleCheckAddrs]
    by_cases ha : a = ""
    · rw [if_pos ha]; exact ⟨_, rfl⟩
    · rw [if_neg ha]
      cases h with
      | head => exact absurd rfl ha
      | tail _ h2 => exact ih h2

/-- Claim C10: setup of the rule command returns an error when the
`--query` flag repeats an address, when neither a `--query` address nor a
`--query.sd-files` pattern is configured, or when a static querier
address is the empty string. -/
theorem C10_setup_rejects_bad_query_config (queries fileSDFiles : List String) :
    (¬ queries.Nodup → (ruleSetup queries fileSDFiles).isSome = true) ∧
    (fileSDFiles = [] → queries = [] →
      (ruleSetup queries fileSDFiles).isSome = true) ∧
    ("" ∈ queries → (ruleSetup queries fileSDFiles).isSome = true) := by
  refine ⟨?_, ?_, ?_⟩
  · intro hnd
    cases hd : findDuplicateQuery queries [] with
    | some q => simp [ruleSetup, registerRuleChecks, hd]
    | none => exact absurd (findDuplicateQuery_none_spec queries [] hd).1 hnd
  · intro hf hq
    subst hf; subst hq
    decide
  · intro hmem
    cases hd : findDuplicateQuery queries [] with
    | some q => simp [ruleSetup, registerRuleChecks, hd]
    | none =>
      obtain ⟨e, he⟩ := runRuleCheckAddrs_empty_mem queries hmem
      have hne : ¬(fileSDFiles = [] ∧ queries = []) := by
        rintro ⟨-, h0⟩
        subst h0
        cases hmem
      simp [ruleSetup, registerRuleChecks, hd, hne, he]

/-- Witness for C10 at concrete inputs: a duplicated query flag, a
configuration with no query source, and an empty static address each
abort setup. -/
theorem C10_setup_rejects_bad_query_config_witness :
    (ruleSetup ["q:1", "q:1"] []).isSome = true ∧
    (ruleSetup [] []).isSome = true ∧
    (ruleSetup ["", "q:2"] ["sd.json"]).isSome = true :=
  ⟨(C10_setup_rejects_bad_query_config ["q:1", "q:1"] []).1 (by decide),
    (C10_setup_rejects_bad_query_config [] []).2.1 rfl rfl,
    (C10_setup_rejects_bad_query_config ["", "q:2"] ["sd.json"]).2.2 (by decide)⟩

/-- A parsed `url.URL` restricted to the fields the alertmanager set
copies into each produced URL: scheme, host, path, and user info. -/
structure GoURL where
  Scheme : String
  Host : String
  Path : String
  User : String
deriving DecidableEq, Repr

/-- `defaultAlertmanagerPort` in `cmd/thanos/rule.go`. -/
def defaultAlertmanagerPort : Nat := 9093

/-- Modelled from the spec: the qtype constant `dns.A` of the discovery
package (pkg/discovery/dns is not under src/). Spec §4.1: the `dns+`
prefix selects qtype A, and `update` derives the qtype from the text
before the first `+`, so `dns.A` is the string `dns`. -/
def dnsQTypeA : String := "dns"

/-- `strings.SplitN(addr, "+", 2)` as used in `alertmanagerSet.update`:
`none` when the address has no `+` (name stays the whole address and the
qtype stays empty), otherwise the text before the first `+` (the qtype)
paired with the rest (the name). -/
def splitN2Plus (s : String) : Option (String × String) :=
  match s.toList.dropWhile (fun c => c ≠ '+') with
  | [] => none
  | _ :: rest => some (⟨s.toList.takeWhile (fun c => c ≠ '+')⟩, ⟨rest⟩)

/-- The body of `alertmanagerSet.update` (`cmd/thanos/rule.go`) for one
configured address: split off the optional qtype prefix, parse the
remainder as a URL (oracle `parseURL`, `none` meaning `url.Parse`
failed); for qtype A append the default Alertmanager port when
`net.SplitHostPort` fails on the host (oracle `splitHostPortOk`), then
resolve through the DNS resolver (oracle `resolve`); an unprefixed
address is passed through unresolved; every resolved record becomes one
URL carrying the parsed scheme, path and user info. -/
def alertmanagerSetUpdateOne (parseURL : String → Option GoURL)
    (splitHostPortOk : String → Bool)
    (resolve : String → String → Except String (List String))
    (addr : String) : Except String (List GoURL) :=
  let name := match splitN2Plus addr with | some (_, n) => n | none => addr
  let qtype := match splitN2Plus addr with | some (q, _) => q | none => ""
  match parseURL name with
  | none => Except.error ("parse URL " ++ name)
  | some u =>
    if qtype ≠ "" then
      let host :=
        if qtype = dnsQTypeA ∧ splitHostPortOk u.Host = false then
          u.Host ++ ":" ++ toString defaultAlertmanagerPort
        else u.Host
      match resolve host qtype with
      | Except.error e => Except.error ("alertmanager resolve: " ++ e)
      | Except.ok recs =>
        Except.ok (recs.map (fun rec => ⟨u.Scheme, rec, u.Path, u.User⟩))
    else
      Except.ok [⟨u.Scheme, u.Host, u.Path, u.User⟩]

/-- The loop of `alertmanagerSet.update` over all configured addresses:
the first failing address aborts the whole update with its error; on
success the per-address URL lists are appended in order. -/
def alertmanagerSetUpdateAll (parseURL : String → Option GoURL)
    (splitHostPortOk : String → Bool)
    (resolve : String → String → Except String (List String)) :
    List String → Except String (List GoURL)
  | [] => Except.ok []
  | addr :: rest =>
    match alertmanagerSetUpdateOne parseURL splitHostPortOk resolve addr with
    | Except.error e => Except.error e
    | Except.ok us =>
      match alertmanagerSetUpdateAll parseURL splitHostPortOk resolve rest with
      | Except.error e => Except.error e
      | Except.ok more => Except.ok (us ++ more)

/-- The `alertmanagerSet` struct of `cmd/thanos/rule.go`: the configured
addresses and the current resolved URL slice guarded by the mutex. -/
structure AlertmanagerSet where
  addrs : List String
  current : List GoURL
deriving DecidableEq, Repr

/-- `alertmanagerSet.update` as a state transition: on any error the
state is unchanged and the error is returned; on success `current` is
replaced wholesale (the mutex-guarded assignment) and nil is returned. -/
def AlertmanagerSet.update (parseURL : String → Option GoURL)
    (splitHostPortOk : String → Bool)
    (resolve : String → String → Except String (List String))
    (s : AlertmanagerSet) : AlertmanagerSet × Option String :=
  match alertmanagerSetUpdateAll parseURL splitHostPortOk resolve s.addrs with
  | Except.error e => (s, some e)
  | Except.ok result => ({ s with current := result }, none)

/-- `alertmanagerSet.get`: the current slice, read under the mutex. -/
def AlertmanagerSet.get (s : AlertmanagerSet) : List GoURL := s.current

/-- The URL list an address contributes when its resolution succeeds
(used to state the shape of a successful update). -/
def updateOneOr (parseURL : String → Option GoURL)
    (splitHostPortOk : String → Bool)
    (resolve : String → String → Except String (List String))
    (addr : String) : List GoURL :=
  match alertmanagerSetUpdateOne parseURL splitHostPortOk resolve addr with
  | Except.ok us => us
  | Except.error _ => []

/-- A successful full update is the concatenation of the per-address URL
lists, and every configured address resolved successfully. -/
theorem alertmanagerSetUpdateAll_ok_join (parseURL : String → Option GoURL)
    (splitHostPortOk : String → Bool)
    (resolve : String → String → Except String (List String)) :
    ∀ (l : List String) (res : List GoURL),
      alertmanagerSetUpdateAll parseURL splitHostPortOk resolve l = Except.ok res →
      res = (l.map (updateOneOr parseURL splitHostPortOk resolve)).join ∧
      ∀ a ∈ l, ∃ us,
        alertmanagerSetUpdateOne parseURL splitHostPortOk resolve a = Except.ok us := by
  intro l
  induction l with
  | nil =>
    intro res h
    injection h with h2
    subst h2
    exact ⟨rfl, by simp⟩
  | cons addr rest ih =>
    intro res h
    simp only [alertmanagerSetUpdateAll] at h
    cases h1 : alertmanagerSetUpdateOne parseURL splitHostPortOk resolve addr with
    | error e => rw [h1] at h; cases h
    | ok us =>
      rw [h1] at h
      cases h2 : alertmanagerSetUpdateAll parseURL splitHostPortOk resolve rest with
      | error e => rw [h2] at h; cases h
      | ok more =>
        rw [h2] at h
        injection h with h3
        subst h3
        obtain ⟨hjoin, hmem⟩ := ih more h2
        constructor
        · simp only [List.map_cons, List.join_cons, updateOneOr, h1]
          rw [hjoin]
        · intro a ha
          cases ha with
          | head => exact ⟨us, h1⟩
          | tail _ ha2 => exact hmem a ha2

/-- A failing address anywhere in the list makes the whole update fail. -/
theorem alertmanagerSetUpdateAll_error_of_mem (parseURL : String → Option GoURL)
    (splitHostPortOk : String → Bool)
    (resolve : String → String → Except String (List String)) :
    ∀ (l : List String) (a e : String), a ∈ l →
      alertmanagerSetUpdateOne parseURL splitHostPortOk resolve a = Except.error e →
      ∃ e2, alertmanagerSetUpdateAll parseURL splitHostPortOk resolve l
        = Except.error e2 := by
  intro l
  induction l with
  | nil => intro a e ha _; cases ha
  | cons b rest ih =>
    intro a e ha he
    cases ha with
    | head => exact ⟨e, by simp [alertmanagerSetUpdateAll, he]⟩
    | tail _ ha2 =>
      cases hb : alertmanagerSetUpdateOne parseURL splitHostPortOk resolve b with
      | error e3 => exact ⟨e3, by simp [alertmanagerSetUpdateAll, hb]⟩
      | ok us =>
        obtain ⟨e2, h2⟩ := ih a e ha2 he
        exact ⟨e2, by simp [alertmanagerSetUpdateAll, hb, h2]⟩

/-- Claim C7: a successful update produces, for each configured address,
one URL per resolved record preserving the parsed scheme, user info and
path; a `dns+` prefixed address whose host lacks a port is resolved with
port 9093 appended; an unprefixed address passes through with its host
unchanged. -/
theorem C7_update_resolution_shapes (parseURL : String → Option GoURL)
    (splitHostPortOk : String → Bool)
    (resolve : String → String → Except String (List String)) :
    (∀ (addr : String) (u : GoURL), splitN2Plus addr = none →
      parseURL addr = some u →
      alertmanagerSetUpdateOne parseURL splitHostPortOk resolve addr
        = Except.ok [⟨u.Scheme, u.Host, u.Path, u.User⟩]) ∧
    (∀ (addr name : String) (u : GoURL) (recs : List String),
      splitN2Plus addr = some ("dns", name) →
      parseURL name = some u →
      splitHostPortOk u.Host = false →
      resolve (u.Host ++ ":" ++ toString defaultAlertmanagerPort) "dns"
        = Except.ok recs →
      alertmanagerSetUpdateOne parseURL splitHostPortOk resolve addr
        = Except.ok (recs.map (fun rec => ⟨u.Scheme, rec, u.Path, u.User⟩))) ∧
    (∀ st st2 : AlertmanagerSet,
      AlertmanagerSet.update parseURL splitHostPortOk resolve st = (st2, none) →
      st2.current
          = (st.addrs.map (updateOneOr parseURL splitHostPortOk resolve)).join ∧
      ∀ a ∈ st.addrs, ∃ us,
        alertmanagerSetUpdateOne parseURL splitHostPortOk resolve a
          = Except.ok us) := by
  refine ⟨?_, ?_, ?_⟩
  · intro addr u hsplit hparse
    simp only [alertmanagerSetUpdateOne, hsplit, hparse]
    rw [if_neg (by simp)]
  · intro addr name u recs hsplit hparse hport hres
    simp only [alertmanagerSetUpdateOne, hsplit, hparse]
    rw [if_pos (by decide)]
    rw [if_pos ⟨rfl, hport⟩]
    simp only [hres]
  · intro st st2 h
    unfold AlertmanagerSet.update at h
    cases hall : alertmanagerSetUpdateAll parseURL splitHostPortOk resolve st.addrs with
    | error e =>
      rw [hall] at h
      injection h with _ h2
      cases h2
    | ok res =>
      rw [hall] at h
      injection h with h1 _
      obtain ⟨hjoin, hmem⟩ :=
        alertmanagerSetUpdateAll_ok_join parseURL splitHostPortOk resolve
          st.addrs res hall
      subst h1
      exact ⟨by simpa using hjoin, hmem⟩

/-- Concrete `url.Parse` oracle for the C7 and C9 witnesses. -/
def amParseW : String → Option GoURL :=
  fun s =>
    if s = "http://am.example.org" then
      some ⟨"http", "am.example.org", "/prefix", "alice"⟩
    else if s = "am2.example.org:9000" then
      some ⟨"", "am2.example.org:9000", "", ""⟩
    else none

/-- Concrete DNS oracle for the C7 witness: qtype `dns` resolves to two
records. -/
def amResolveW : String → String → Except String (List String) :=
  fun _ q =>
    if q = "dns" then Except.ok ["1.1.1.1:9093", "1.1.1.2:9093"]
    else Except.error "unsupported qtype"

/-- Witness for C7 at concrete inputs: an unprefixed address passes
through unchanged and a `dns+` address without a port resolves with port
9093 into one URL per record. -/
theorem C7_update_resolution_shapes_witness :
    alertmanagerSetUpdateOne amParseW (fun _ => false) amResolveW
        "am2.example.org:9000"
      = Except.ok [⟨"", "am2.example.org:9000", "", ""⟩] ∧
    alertmanagerSetUpdateOne amParseW (fun _ => false) amResolveW
        "dns+http://am.example.org"
      = Except.ok (["1.1.1.1:9093", "1.1.1.2:9093"].map
          (fun rec => ⟨"http", rec, "/prefix", "alice"⟩)) :=
  ⟨(C7_update_resolution_shapes amParseW (fun _ => false) amResolveW).1
      "am2.example.org:9000" ⟨"", "am2.example.org:9000", "", ""⟩
      (by decide) (by decide),
    (C7_update_resolution_shapes amParseW (fun _ => false) amResolveW).2.1
      "dns+http://am.example.org" "http://am.example.org"
      ⟨"http", "am.example.org", "/prefix", "alice"⟩
      ["1.1.1.1:9093", "1.1.1.2:9093"] (by decide) (by decide) rfl rfl⟩

/-- Claim C9: an update in which some configured address fails to parse
or resolve returns a non-nil error and leaves the state — hence the
slice read by `get` — unchanged; on full success the current slice is
replaced wholesale with the new result. -/
theorem C9_update_error_keeps_current (parseURL : String → Option GoURL)
    (splitHostPortOk : String → Bool)
    (resolve : String → String → Except String (List String))
    (st : AlertmanagerSet) :
    (∀ (a e : String), a ∈ st.addrs →
      alertmanagerSetUpdateOne parseURL splitHostPortOk resolve a
        = Except.error e →
      ∃ e2, AlertmanagerSet.update parseURL splitHostPortOk resolve st
          = (st, some e2) ∧
        (AlertmanagerSet.update parseURL splitHostPortOk resolve st).1.get
          = st.get) ∧
    (∀ res, alertmanagerSetUpdateAll parseURL splitHostPortOk resolve st.addrs
        = Except.ok res →
      AlertmanagerSet.update parseURL splitHostPortOk resolve st
        = ({ st with current := res }, none)) := by
  constructor
  · intro a e ha he
    obtain ⟨e2, h2⟩ :=
      alertmanagerSetUpdateAll_error_of_mem parseURL splitHostPortOk resolve
        st.addrs a e ha he
    refine ⟨e2, ?_, ?_⟩
    · simp [AlertmanagerSet.update, h2]
    · simp [AlertmanagerSet.update, h2]
  · intro res h
    simp [AlertmanagerSet.update, h]

/-- Witness for C9 at a concrete input: an unparsable address leaves the
previous URL slice in place. -/
theorem C9_update_error_keeps_current_witness :
    ∃ e2,
      AlertmanagerSet.update amParseW (fun _ => false) amResolveW
          ⟨["bogus"], [⟨"http", "old.example.org:9093", "", ""⟩]⟩
        = (⟨["bogus"], [⟨"http", "old.example.org:9093", "", ""⟩]⟩, some e2) ∧
      (AlertmanagerSet.update amParseW (fun _ => false) amResolveW
          ⟨["bogus"], [⟨"http", "old.example.org:9093", "", ""⟩]⟩).1.get
        = AlertmanagerSet.get
            ⟨["bogus"], [⟨"http", "old.example.org:9093", "", ""⟩]⟩ :=
  (C9_update_error_keeps_current amParseW (fun _ => false) amResolveW
      ⟨["bogus"], [⟨"http", "old.example.org:9093", "", ""⟩]⟩).1
    "bogus" "parse URL bogus" (by decide) rfl

/-- A file-SD target group: the `__address__` label of each target. -/
structure TargetGroup where
  targets : List String
deriving DecidableEq, Repr

/-- Modelled from the spec: `cache.Cache.Update` (pkg/discovery/cache is
not under src/). Spec §4.2: the cache flattens the groups of one update
message into a flat address view, replacing the previous view
atomically. -/
def cacheUpdate (groups : List TargetGroup) : List String :=
  (groups.map TargetGroup.targets).join

/-- The file-SD update loop of `runRule` (`cmd/thanos/rule.go`): each
message from the discoverer channel is either nil — skipped without
touching the cache, as discoverers sometimes send nil — or a group list
handed to exactly one `fileSDCache.Update` call. The state is the cache
view paired with the number of Update calls made so far. -/
def fileSDLoop (cache : List String) (calls : Nat) :
    List (Option (List TargetGroup)) → List String × Nat
  | [] => (cache, calls)
  | none :: rest => fileSDLoop cache calls rest
  | some msg :: rest => fileSDLoop (cacheUpdate msg) (calls + 1) rest

/-- Processing a message stream makes one Update call per non-nil
message and leaves the cache at the view of the last non-nil message. -/
theorem fileSDLoop_spec (msgs : List (Option (List TargetGroup))) :
    ∀ (cache : List String) (calls : Nat),
      (fileSDLoop cache calls msgs).2 = calls + (msgs.filterMap id).length ∧
      (fileSDLoop cache calls msgs).1
        = ((msgs.filterMap id).getLast?.map cacheUpdate).getD cache := by
  induction msgs with
  | nil => intro c k; simp [fileSDLoop]
  | cons m rest ih =>
    intro c k
    cases m with
    | none =>
      have h := ih c k
      simpa [fileSDLoop, List.filterMap_cons] using h
    | some u =>
      have h := ih (cacheUpdate u) (k + 1)
      constructor
      · rw [fileSDLoop, h.1, List.filterMap_cons]
        simp
        omega
      · rw [fileSDLoop, h.2, List.filterMap_cons]
        simp only [id]
        cases hfm : rest.filterMap id with
        | nil => simp [hfm]
        | cons x xs =>
          rw [List.getLast?_cons_cons]
          cases hy : (x :: xs).getLast? with
          | none =>
            exact absurd (List.getLast?_eq_none_iff.mp hy) (by simp)
          | some y => simp

/-- Claim C8: over any stream of file-SD messages, nil messages are
ignored (they trigger no Update call and cannot make the loop fail) and
every non-nil message replaces the cache view through a single Update
call: the number of Update calls equals the number of non-nil messages
and the final view is the flattened address set of the last non-nil
message (or the initial view when there was none). -/
theorem C8_nil_filesd_messages_ignored (cache : List String)
    (msgs : List (Option (List TargetGroup))) :
    (fileSDLoop cache 0 msgs).2 = (msgs.filterMap id).length ∧
    (fileSDLoop cache 0 msgs).1
      = ((msgs.filterMap id).getLast?.map cacheUpdate).getD cache := by
  have h := fileSDLoop_spec msgs cache 0
  exact ⟨by rw [h.1]; omega, h.2⟩

/-- Witness for C8 at a concrete input: a nil message between two updates
is skipped; two Update calls happen and the final view is the flattened
last message. -/
theorem C8_nil_filesd_messages_ignored_witness :
    (fileSDLoop ["seed:9090"] 0
        [some [⟨["a:1", "b:2"]⟩], none, some [⟨["c:3"]⟩, ⟨["d:4"]⟩]]).2 = 2 ∧
    (fileSDLoop ["seed:9090"] 0
        [some [⟨["a:1", "b:2"]⟩], none, some [⟨["c:3"]⟩, ⟨["d:4"]⟩]]).1
      = ["c:3", "d:4"] := by
  have h := C8_nil_filesd_messages_ignored ["seed:9090"]
    [some [⟨["a:1", "b:2"]⟩], none, some [⟨["c:3"]⟩, ⟨["d:4"]⟩]]
  exact ⟨h.1.trans (by decide), h.2.trans (by decide)⟩

end ThanosRule
